import Mathlib

/-!
Formal model of the Event Sourcing core of the nestjs-ddd-cqrs-event-sourcing
repository: the in-memory event store (`InMemoryEventStore.saveEvents`,
`getEventsForAggregate`), the event-sourced aggregate base class
(`applyEvent`, `fromHistory`, `fromSnapshot`, snapshots, the uncommitted-event
buffer), the concrete `UserEventSourcedAggregate` state machine, and the
`UserEventSourcedRepository` orchestration (`getById`, `save`,
`replayFromHistory`).

Conventions of the embedding:
* JavaScript `Date` values are modelled as natural numbers (`Timestamp`);
  `new Date()` (the ambient wall clock) appears as an explicit
  `now : Timestamp` parameter wherever the source reads the clock.
* The randomly generated identifiers (`crypto.randomUUID()` for
  `eventId`/`correlationId`, `BaseDomainEvent.generateEventId`) are not
  modelled: nothing in the source reads them back.
* A JS `Map<string, T>` whose reads all go through `get(k) || default` is
  modelled as a total function `String → T` (observationally equivalent, since
  every access in the source supplies the default).
* Mutation is modelled by state passing: a method that mutates `this` returns
  the updated value; a method that can `throw` returns `Except`.
* JS string operations (`split(' ')`, `trim()`, `toLowerCase()`, `join(' ')`,
  `startsWith`) are modelled by structural recursion over the character list,
  so that all definitions evaluate inside the kernel.
-/

/-- JS `Date` values, as milliseconds since the epoch. -/
abbrev Timestamp := Nat

/-- JS `String.prototype.toLowerCase` restricted to the alphabets that occur in
the repository (ASCII); per-character lowering. -/
def jsToLowerCase (s : String) : String := ⟨s.data.map Char.toLower⟩

/-- JS `String.prototype.trim`: drop whitespace from both ends. -/
def jsTrim (s : String) : String :=
  ⟨((s.data.dropWhile Char.isWhitespace).reverse.dropWhile Char.isWhitespace).reverse⟩

/-- Character-list core of JS `String.prototype.split(sep)` for a one-character
separator: `''.split(' ') = ['']`, separators at the ends produce empty
parts. -/
def splitCharsOn (sep : Char) : List Char → List (List Char)
  | [] => [[]]
  | c :: cs =>
    if c = sep then [] :: splitCharsOn sep cs
    else
      match splitCharsOn sep cs with
      | [] => [[c]]
      | h :: t => (c :: h) :: t

/-- JS `s.split(' ')`. -/
def jsSplitOnSpace (s : String) : List String :=
  (splitCharsOn ' ' s.data).map (fun l => ⟨l⟩)

/-- JS `parts.join(' ')`. -/
def jsJoinSpace : List String → String
  | [] => ""
  | [s] => s
  | s :: rest => s ++ " " ++ jsJoinSpace rest

/-- JS `s.startsWith(pre)`. -/
def jsStartsWith (s pre : String) : Bool := pre.data.isPrefixOf s.data

/-- The value stored by `Email.create(email)` when construction succeeds:
`new Email(email.toLowerCase().trim())` keeps the normalized string.  The
full translation, including the constructor's throwing validation, is
`Email.createChecked`; `createChecked` returns `.ok (Email.create email)`
exactly when validation passes (`emailCreateChecked_ok`). -/
def Email.create (email : String) : String := jsTrim (jsToLowerCase email)

/-- The JS regex test `/^[^\s@]+@[^\s@]+\.[^\s@]+$/.test(s)`: the string is
`A ++ '@' ++ B ++ '.' ++ C` with `A`, `B`, `C` non-empty and free of
whitespace and `'@'`.  Equivalently: splitting on `'@'` yields exactly two
segments (so exactly one `'@'`), both non-empty and whitespace-free, and the
segment after the `'@'` contains a `'.'` that is neither its first nor its
last character (`B` and `C` non-empty; `B` and `C` may themselves contain
further dots). -/
def emailRegexTest (s : String) : Bool :=
  match splitCharsOn '@' s.data with
  | [localPart, domainPart] =>
    !localPart.isEmpty && localPart.all (fun c => !c.isWhitespace) &&
    !domainPart.isEmpty && domainPart.all (fun c => !c.isWhitespace) &&
    ((domainPart.drop 1).dropLast).contains '.'
  | _ => false

/-- `Email.validate(email)` of the `Email` value object, run by the
`BaseValueObject` constructor on the (already normalized) value: the error
message thrown, if any — empty value, regex failure, then the length cap. -/
def Email.validationError (email : String) : Option String :=
  if email.length = 0 then some "Email не может быть пустым"
  else if !emailRegexTest email then some "Некорректный формат email адреса"
  else if 254 < email.length then
    some "Email слишком длинный (максимум 254 символа)"
  else none

/-- `Email.create(email)` in full: normalize, then run the constructor's
validation; a validation failure is the thrown error. -/
def Email.createChecked (email : String) : Except String String :=
  let v := jsTrim (jsToLowerCase email)
  match Email.validationError v with
  | some msg => .error msg
  | none => .ok v

/-- The value stored by `UserName.create(firstName, lastName)` when
construction succeeds: the pair of trimmed components.  The full
translation, including the constructor's throwing validation, is
`UserName.createChecked`, which returns `.ok (UserName.create …)` exactly
when validation passes (`userNameCreateChecked_ok`). -/
def UserName.create (firstName lastName : String) : String × String :=
  (jsTrim firstName, jsTrim lastName)

/-- One character of the JS name regex class `[a-zA-ZА-Яа-яёЁ\s-]`. -/
def isNameChar (c : Char) : Bool :=
  decide (('a' ≤ c ∧ c ≤ 'z') ∨ ('A' ≤ c ∧ c ≤ 'Z') ∨
    ('А' ≤ c ∧ c ≤ 'Я') ∨ ('а' ≤ c ∧ c ≤ 'я') ∨
    c = 'ё' ∨ c = 'Ё' ∨ c.isWhitespace = true ∨ c = '-')

/-- The JS regex test `/^[a-zA-ZА-Яа-яёЁ\s-]+$/.test(s)`: non-empty and
every character in the class. -/
def nameRegexTest (s : String) : Bool :=
  !s.data.isEmpty && s.data.all isNameChar

/-- `UserName.create(firstName, lastName)` in full: the constructor trims
both components and `validate` then throws, in source order, on a missing
component, a first or last name outside 2–50 characters, or a character
outside letters/whitespace/hyphen. -/
def UserName.createChecked (firstName lastName : String) :
    Except String (String × String) :=
  let f := jsTrim firstName
  let l := jsTrim lastName
  if f.length = 0 ∨ l.length = 0 then .error "Имя и фамилия обязательны"
  else if f.length < 2 ∨ 50 < f.length then
    .error "Имя должно содержать от 2 до 50 символов"
  else if l.length < 2 ∨ 50 < l.length then
    .error "Фамилия должна содержать от 2 до 50 символов"
  else if !nameRegexTest f ∨ !nameRegexTest l then
    .error "Имя и фамилия должны содержать только буквы, пробелы и дефисы"
  else .ok (f, l)

/-- `UserStatus` enum of `user-event-sourced.aggregate.ts`. -/
inductive UserStatus
  | pending
  | active
  | blocked
deriving DecidableEq

/-- The event-specific fields of the five concrete domain event classes
(`UserCreatedEvent`, `UserActivatedEvent`, `UserBlockedEvent`,
`UserEmailVerifiedEvent`, `UserEmailChangedEvent`). -/
inductive EventPayload
  | userCreated (email : String) (fullName : String)
  | userActivated (email : String)
  | userBlocked (email : String) (reason : Option String)
  | userEmailVerified (email : String)
  | userEmailChanged (oldEmail : String) (newEmail : String)
deriving DecidableEq

/-- `event.constructor.name` for each concrete event class. -/
def eventTypeName : EventPayload → String
  | .userCreated _ _ => "UserCreatedEvent"
  | .userActivated _ => "UserActivatedEvent"
  | .userBlocked _ _ => "UserBlockedEvent"
  | .userEmailVerified _ => "UserEmailVerifiedEvent"
  | .userEmailChanged _ _ => "UserEmailChangedEvent"

/-- A `BaseDomainEvent` instance: `aggregateId` and `occurredAt = new Date()`
are set by the base constructor; `aggregateVersion` is absent until
`applyEvent` stamps it on a new event (`(event as any).aggregateVersion`);
`payload` holds the concrete subclass fields.  The constant field
`eventVersion = 1` and the random `eventId` are not modelled. -/
structure BaseDomainEvent where
  aggregateId : String
  occurredAt : Timestamp
  aggregateVersion : Option Nat
  payload : EventPayload
deriving DecidableEq

/-- In-memory state of a `UserEventSourcedAggregate` (including the fields
inherited from `EventSourcedAggregateRoot`).  Fields that are `undefined`
until the first relevant event is applied are modelled as `Option`;
`_userName` is the pair `(firstName, lastName)` of the `UserName` value
object. -/
structure UserEventSourcedAggregate where
  id : String
  version : Nat
  uncommittedEvents : List BaseDomainEvent
  email : Option String
  userName : Option (String × String)
  status : Option UserStatus
  isEmailVerified : Bool
  createdAt : Option Timestamp
  lastLoginAt : Option Timestamp
deriving DecidableEq

/-- `new UserEventSourcedAggregate(id)`: version 0, empty buffer, business
fields not yet set (`_isEmailVerified` is initialized to `false`).  The
`id || crypto.randomUUID()` fallback is made explicit: the caller always
supplies the identifier. -/
def UserEventSourcedAggregate.mkNew (id : String) : UserEventSourcedAggregate :=
  { id := id
    version := 0
    uncommittedEvents := []
    email := none
    userName := none
    status := none
    isEmailVerified := false
    createdAt := none
    lastLoginAt := none }

/-- `getUncommittedEvents()` returns `[...this._uncommittedEvents]`; on
immutable values the copy is the buffer itself.  (The aliasing content of the
spread copy is modelled separately on an explicit heap, see
`heapGetUncommittedEvents`.) -/
def UserEventSourcedAggregate.getUncommittedEvents
    (a : UserEventSourcedAggregate) : List BaseDomainEvent :=
  a.uncommittedEvents

/-- `markEventsAsCommitted()`: clear the uncommitted-event buffer. -/
def UserEventSourcedAggregate.markEventsAsCommitted
    (a : UserEventSourcedAggregate) : UserEventSourcedAggregate :=
  { a with uncommittedEvents := [] }

/-- The state computed by the `when` handler of `UserEventSourcedAggregate`
when it does not throw: dispatch on the event class and mutate the business
state; `whenUserCreated` splits `fullName` back into first and last name
(`names[0] || ''`, `names.slice(1).join(' ') || ''`).  The full translation,
in which `Email.create`/`UserName.create` can throw their validation errors,
is `applyWhenChecked`; it returns `.ok (a.applyWhen e)` exactly when no
validation fires (`applyWhenChecked_ok_eq`). -/
def UserEventSourcedAggregate.applyWhen (a : UserEventSourcedAggregate)
    (e : BaseDomainEvent) : UserEventSourcedAggregate :=
  match e.payload with
  | .userCreated email fullName =>
    let names := jsSplitOnSpace fullName
    let firstName := names.headD ""
    let lastName := jsJoinSpace (names.drop 1)
    { a with
      email := some (Email.create email)
      userName := some (UserName.create firstName lastName)
      status := some UserStatus.pending
      isEmailVerified := false
      createdAt := some e.occurredAt }
  | .userActivated _ => { a with status := some UserStatus.active }
  | .userBlocked _ _ => { a with status := some UserStatus.blocked }
  | .userEmailVerified _ => { a with isEmailVerified := true }
  | .userEmailChanged _ newEmail =>
    { a with email := some (Email.create newEmail), isEmailVerified := false }

/-- `applyEvent(event, isNew)`: run `when`, increment `_version`, and if the
event is new, stamp it with the now-current version and push it on the
uncommitted-event buffer. -/
def UserEventSourcedAggregate.applyEvent (a : UserEventSourcedAggregate)
    (e : BaseDomainEvent) (isNew : Bool) : UserEventSourcedAggregate :=
  let a1 := a.applyWhen e
  let a2 := { a1 with version := a1.version + 1 }
  if isNew then
    { a2 with
      uncommittedEvents :=
        a2.uncommittedEvents ++ [{ e with aggregateVersion := some a2.version }] }
  else a2

/-- `EventSourcedAggregateRoot.fromHistory(events)`: throw on an empty
history, otherwise construct the aggregate with the first event's
`aggregateId` and apply every event with `isNew = false`. -/
def UserEventSourcedAggregate.fromHistory (events : List BaseDomainEvent) :
    Except String UserEventSourcedAggregate :=
  match events with
  | [] => .error "Нельзя восстановить агрегат из пустой истории событий"
  | e :: _ =>
    .ok (events.foldl (fun a ev => a.applyEvent ev false)
      (UserEventSourcedAggregate.mkNew e.aggregateId))

/-- The `when` handler in full: `whenUserCreated` runs
`Email.create(event.email)` and then `UserName.create(firstName, lastName)`
through the throwing constructors (in source order), and
`whenUserEmailChanged` runs `Email.create(event.newEmail)`; a validation
failure is the thrown error and leaves the aggregate untouched. -/
def UserEventSourcedAggregate.applyWhenChecked (a : UserEventSourcedAggregate)
    (e : BaseDomainEvent) : Except String UserEventSourcedAggregate :=
  match e.payload with
  | .userCreated email fullName =>
    match Email.createChecked email with
    | .error msg => .error msg
    | .ok em =>
      let names := jsSplitOnSpace fullName
      let firstName := names.headD ""
      let lastName := jsJoinSpace (names.drop 1)
      match UserName.createChecked firstName lastName with
      | .error msg => .error msg
      | .ok un =>
        .ok { a with
          email := some em
          userName := some un
          status := some UserStatus.pending
          isEmailVerified := false
          createdAt := some e.occurredAt }
  | .userActivated _ => .ok { a with status := some UserStatus.active }
  | .userBlocked _ _ => .ok { a with status := some UserStatus.blocked }
  | .userEmailVerified _ => .ok { a with isEmailVerified := true }
  | .userEmailChanged _ newEmail =>
    match Email.createChecked newEmail with
    | .error msg => .error msg
    | .ok em =>
      .ok { a with email := some em, isEmailVerified := false }

/-- `applyEvent(event, isNew)` in full: `this.when(event)` runs *before*
`this._version++`, so when `when` throws a validation error the error
propagates and neither the version nor the buffer is touched. -/
def UserEventSourcedAggregate.applyEventChecked (a : UserEventSourcedAggregate)
    (e : BaseDomainEvent) (isNew : Bool) :
    Except String UserEventSourcedAggregate :=
  match a.applyWhenChecked e with
  | .error msg => .error msg
  | .ok a1 =>
    let a2 := { a1 with version := a1.version + 1 }
    if isNew then
      .ok { a2 with
        uncommittedEvents :=
          a2.uncommittedEvents ++ [{ e with aggregateVersion := some a2.version }] }
    else .ok a2

/-- `fromHistory(events)` in full: the empty-history error, and otherwise a
replay in which any event's validation error propagates out. -/
def UserEventSourcedAggregate.fromHistoryChecked
    (events : List BaseDomainEvent) : Except String UserEventSourcedAggregate :=
  match events with
  | [] => .error "Нельзя восстановить агрегат из пустой истории событий"
  | e :: _ =>
    events.foldlM (fun a ev => a.applyEventChecked ev false)
      (UserEventSourcedAggregate.mkNew e.aggregateId)

/-- The `data` of an aggregate snapshot as produced by
`UserEventSourcedAggregate.getSnapshotData` (`status` is stored as-is, the
timestamps survive the ISO round trip unchanged). -/
structure SnapshotData where
  email : String
  firstName : String
  lastName : String
  status : UserStatus
  isEmailVerified : Bool
  createdAt : Timestamp
  lastLoginAt : Option Timestamp
deriving DecidableEq

/-- `AggregateSnapshot` record of `event-sourced-aggregate.ts`. -/
structure AggregateSnapshot where
  aggregateId : String
  aggregateType : String
  version : Nat
  data : SnapshotData
  timestamp : Timestamp
deriving DecidableEq

/-- `getSnapshotData()` reads `this._email.value`, the name components,
status, flags and timestamps.  In the source this crashes when the aggregate
has never seen a `UserCreatedEvent` (the fields are `undefined`); the model
returns `none` in that case. -/
def UserEventSourcedAggregate.getSnapshotData (a : UserEventSourcedAggregate) :
    Option SnapshotData :=
  match a.email, a.userName, a.status, a.createdAt with
  | some email, some (firstName, lastName), some status, some createdAt =>
    some
      { email := email
        firstName := firstName
        lastName := lastName
        status := status
        isEmailVerified := a.isEmailVerified
        createdAt := createdAt
        lastLoginAt := a.lastLoginAt }
  | _, _, _, _ => none

/-- `createSnapshot()` of the aggregate base class: package
`(aggregateId, constructor.name, version, getSnapshotData(), new Date())`. -/
def UserEventSourcedAggregate.createSnapshot (a : UserEventSourcedAggregate)
    (now : Timestamp) : Option AggregateSnapshot :=
  (a.getSnapshotData).map (fun data =>
    { aggregateId := a.id
      aggregateType := "UserEventSourcedAggregate"
      version := a.version
      data := data
      timestamp := now })

/-- `applySnapshotData(data)`: rebuild the value objects from the serialized
snapshot fields. -/
def UserEventSourcedAggregate.applySnapshotData (a : UserEventSourcedAggregate)
    (data : SnapshotData) : UserEventSourcedAggregate :=
  { a with
    email := some (Email.create data.email)
    userName := some (UserName.create data.firstName data.lastName)
    status := some data.status
    isEmailVerified := data.isEmailVerified
    createdAt := some data.createdAt
    lastLoginAt := data.lastLoginAt }

/-- `EventSourcedAggregateRoot.fromSnapshot(snapshot)`: fresh aggregate with
the snapshot's id, `_version = snapshot.version`, state from
`applySnapshotData`. -/
def UserEventSourcedAggregate.fromSnapshot (snapshot : AggregateSnapshot) :
    UserEventSourcedAggregate :=
  let a := UserEventSourcedAggregate.mkNew snapshot.aggregateId
  { a with version := snapshot.version }.applySnapshotData snapshot.data

/-- `UserEventSourcedAggregate.create(email, userName)`: fresh aggregate plus
a `UserCreatedEvent` applied as new.  `email` is the string value of the
`Email` value object (`email.value`), `firstName`/`lastName` those of
`UserName`; the generated aggregate id is an explicit parameter. -/
def UserEventSourcedAggregate.create (id : String) (email : String)
    (firstName lastName : String) (now : Timestamp) : UserEventSourcedAggregate :=
  (UserEventSourcedAggregate.mkNew id).applyEvent
    { aggregateId := id
      occurredAt := now
      aggregateVersion := none
      payload := .userCreated email (firstName ++ " " ++ lastName) } true

/-- `activate()`: throw on a blocked user, no-op on an active user, otherwise
produce a `UserActivatedEvent`.  Reading `this._email.value` on an aggregate
that never saw a created event would crash in JS; the model maps that crash to
an error. -/
def UserEventSourcedAggregate.activate (a : UserEventSourcedAggregate)
    (now : Timestamp) : Except String UserEventSourcedAggregate :=
  if a.status = some UserStatus.blocked then
    .error "Заблокированный пользователь не может быть активирован"
  else if a.status = some UserStatus.active then .ok a
  else
    match a.email with
    | some email =>
      .ok (a.applyEvent
        { aggregateId := a.id
          occurredAt := now
          aggregateVersion := none
          payload := .userActivated email } true)
    | none => .error "TypeError: _email is undefined"

/-- `block(reason)`: no-op on an already blocked user, otherwise produce a
`UserBlockedEvent`. -/
def UserEventSourcedAggregate.block (a : UserEventSourcedAggregate)
    (reason : String) (now : Timestamp) : Except String UserEventSourcedAggregate :=
  if a.status = some UserStatus.blocked then .ok a
  else
    match a.email with
    | some email =>
      .ok (a.applyEvent
        { aggregateId := a.id
          occurredAt := now
          aggregateVersion := none
          payload := .userBlocked email (some reason) } true)
    | none => .error "TypeError: _email is undefined"

/-- `verifyEmail()`: no-op when the email is already verified, otherwise
produce a `UserEmailVerifiedEvent`. -/
def UserEventSourcedAggregate.verifyEmail (a : UserEventSourcedAggregate)
    (now : Timestamp) : Except String UserEventSourcedAggregate :=
  if a.isEmailVerified then .ok a
  else
    match a.email with
    | some email =>
      .ok (a.applyEvent
        { aggregateId := a.id
          occurredAt := now
          aggregateVersion := none
          payload := .userEmailVerified email } true)
    | none => .error "TypeError: _email is undefined"

/-- `changeEmail(newEmail)`: no-op when the value is unchanged, otherwise
produce a `UserEmailChangedEvent`; `newEmail` is the value of the `Email`
value object passed in. -/
def UserEventSourcedAggregate.changeEmail (a : UserEventSourcedAggregate)
    (newEmail : String) (now : Timestamp) : Except String UserEventSourcedAggregate :=
  match a.email with
  | some oldEmail =>
    if oldEmail = newEmail then .ok a
    else
      .ok (a.applyEvent
        { aggregateId := a.id
          occurredAt := now
          aggregateVersion := none
          payload := .userEmailChanged oldEmail newEmail } true)
  | none => .error "TypeError: _email is undefined"

/-- `EventMetadata` of `event-store.interface.ts` (random `eventId` and the
`metadata.correlationId`/`userId` block are not modelled; the constant
`eventVersion = 1` is kept). -/
structure EventMetadata where
  aggregateId : String
  aggregateType : String
  eventType : String
  eventVersion : Nat
  aggregateVersion : Nat
  timestamp : Timestamp
deriving DecidableEq

/-- The JSON produced by `InMemoryEventStore.serializeEvent`: the constructor
name, the base fields `aggregateId` and `occurredAt`, and the spread of the
event-specific fields. -/
structure SerializedEvent where
  type : String
  aggregateId : String
  occurredAt : Timestamp
  payload : EventPayload
deriving DecidableEq

/-- `StoredEvent` of `event-store.interface.ts`. -/
structure StoredEvent where
  metadata : EventMetadata
  data : SerializedEvent
deriving DecidableEq

/-- `ConcurrencyError(aggregateId, expectedVersion, actualVersion)` of
`event-sourced-repository.interface.ts`. -/
structure ConcurrencyError where
  aggregateId : String
  expectedVersion : Nat
  actualVersion : Nat
deriving DecidableEq

/-- `getAggregateTypeFromEvent`: `'User'` when the constructor name starts
with `'User'`, `'Unknown'` otherwise. -/
def getAggregateTypeFromEvent (e : BaseDomainEvent) : String :=
  if jsStartsWith (eventTypeName e.payload) "User" then "User" else "Unknown"

/-- `serializeEvent(event)`. -/
def serializeEvent (e : BaseDomainEvent) : SerializedEvent :=
  { type := eventTypeName e.payload
    aggregateId := e.aggregateId
    occurredAt := e.occurredAt
    payload := e.payload }

/-- One iteration of the `events.map` loop in `saveEvents`: build the
`StoredEvent` for the event that receives `aggregateVersion = counter + 1`. -/
def mkStoredEvent (aggregateId : String) (aggregateVersion : Nat)
    (e : BaseDomainEvent) : StoredEvent :=
  { metadata :=
      { aggregateId := aggregateId
        aggregateType := getAggregateTypeFromEvent e
        eventType := eventTypeName e.payload
        eventVersion := 1
        aggregateVersion := aggregateVersion
        timestamp := e.occurredAt }
    data := serializeEvent e }

/-- The `events.map` loop of `saveEvents` with its running `versionCounter`
(starting at `counter`, incremented before each event). -/
def toStoredEvents (aggregateId : String) (counter : Nat) :
    List BaseDomainEvent → List StoredEvent
  | [] => []
  | e :: rest =>
    mkStoredEvent aggregateId (counter + 1) e ::
      toStoredEvents aggregateId (counter + 1) rest

/-- `InMemoryEventStore`: the two private maps, with `Map.get(k) || fallback`
reads modelled as total functions. -/
structure InMemoryEventStore where
  events : String → List StoredEvent
  versions : String → Nat

/-- A store with no streams (`new InMemoryEventStore()`). -/
def InMemoryEventStore.empty : InMemoryEventStore :=
  { events := fun _ => [], versions := fun _ => 0 }

/-- `InMemoryEventStore.saveEvents(aggregateId, events, expectedVersion)`.
The result pairs the outcome with the state of the store after the call
(unchanged when the concurrency check throws). -/
def InMemoryEventStore.saveEvents (store : InMemoryEventStore)
    (aggregateId : String) (events : List BaseDomainEvent)
    (expectedVersion : Nat) :
    Except ConcurrencyError Unit × InMemoryEventStore :=
  let currentVersion := store.versions aggregateId
  if currentVersion ≠ expectedVersion then
    (.error
      { aggregateId := aggregateId
        expectedVersion := expectedVersion
        actualVersion := currentVersion }, store)
  else
    let aggregateEvents := store.events aggregateId
    let storedEvents := toStoredEvents aggregateId currentVersion events
    (.ok (),
      { events := fun k =>
          if k = aggregateId then aggregateEvents ++ storedEvents
          else store.events k
        versions := fun k =>
          if k = aggregateId then currentVersion + events.length
          else store.versions k })

/-- `InMemoryEventStore.getEventsForAggregate(aggregateId, fromVersion?)`:
all events of the stream, filtered to `aggregateVersion > fromVersion` when
the bound is supplied. -/
def InMemoryEventStore.getEventsForAggregate (store : InMemoryEventStore)
    (aggregateId : String) (fromVersion : Option Nat) : List StoredEvent :=
  let events := store.events aggregateId
  match fromVersion with
  | some v => events.filter (fun e => v < e.metadata.aggregateVersion)
  | none => events

/-- One case of `UserEventSourcedRepository.deserializeEvents`: rebuild the
domain event from its stored type and data.  The reconstructed event goes
through the `BaseDomainEvent` constructor, so its `occurredAt` is stamped with
the deserialization-time clock `now` — the stored `occurredAt` is *not*
restored.  (The `default` branch for unknown event types is unreachable here
because the model's stored events always carry one of the five known
types.) -/
def deserializeEvent (now : Timestamp) (s : StoredEvent) : BaseDomainEvent :=
  { aggregateId := s.data.aggregateId
    occurredAt := now
    aggregateVersion := none
    payload := s.data.payload }

/-- `deserializeEvents(storedEvents)` at deserialization time `now`. -/
def deserializeEvents (now : Timestamp) (storedEvents : List StoredEvent) :
    List BaseDomainEvent :=
  storedEvents.map (deserializeEvent now)

/-- `UserEventSourcedRepository.getById(id)`.  `snapshot` is the result of
`snapshotStore.getSnapshot(id)` (also `none` when no snapshot store is
configured — both leave `fromVersion = 0` and no aggregate, which is all the
code observes).  `now` is the clock at deserialization time. -/
def UserEventSourcedRepository.getById (store : InMemoryEventStore)
    (snapshot : Option AggregateSnapshot) (now : Timestamp) (id : String) :
    Except String (Option UserEventSourcedAggregate) :=
  match snapshot with
  | some snap =>
    let aggregate := UserEventSourcedAggregate.fromSnapshot snap
    let fromVersion := snap.version
    let storedEvents := store.getEventsForAggregate id (some fromVersion)
    if storedEvents.length = 0 then
      if fromVersion = 0 then .ok none else .ok (some aggregate)
    else
      let domainEvents := deserializeEvents now storedEvents
      if 0 < fromVersion then
        .ok (some (domainEvents.foldl (fun a e => a.applyEvent e false) aggregate))
      else
        (UserEventSourcedAggregate.fromHistory domainEvents).map some
  | none =>
    let storedEvents := store.getEventsForAggregate id (some 0)
    if storedEvents.length = 0 then .ok none
    else
      (UserEventSourcedAggregate.fromHistory
        (deserializeEvents now storedEvents)).map some

/-- `UserEventSourcedRepository.replayFromHistory(id)`: full replay from
version 0, ignoring snapshots. -/
def UserEventSourcedRepository.replayFromHistory (store : InMemoryEventStore)
    (now : Timestamp) (id : String) :
    Except String (Option UserEventSourcedAggregate) :=
  let storedEvents := store.getEventsForAggregate id (some 0)
  if storedEvents.length = 0 then .ok none
  else
    (UserEventSourcedAggregate.fromHistory
      (deserializeEvents now storedEvents)).map some

/-- The failures `UserEventSourcedRepository.save` can propagate: the
`ConcurrencyError` rethrown from the event store, or the error rethrown by
`createSnapshot` when the snapshot store fails. -/
inductive SaveError
  | concurrency (e : ConcurrencyError)
  | snapshotFailure (message : String)
deriving DecidableEq

/-- Post-state of a `UserEventSourcedRepository.save` call: the outcome, the
event store and aggregate after the call (mutations survive a late throw), and
the snapshot handed to `snapshotStore.saveSnapshot`, if any. -/
structure SaveResult where
  result : Except SaveError Unit
  store : InMemoryEventStore
  aggregate : UserEventSourcedAggregate
  savedSnapshot : Option AggregateSnapshot

/-- `UserEventSourcedRepository.save(aggregate)`.  `hasSnapshotStore` models
whether the optional snapshot store is configured, `snapshotSaveOk` whether
its `saveSnapshot` succeeds, and `now` the clock used for the snapshot
timestamp.  An empty uncommitted buffer returns immediately; otherwise the
events are appended with `expectedVersion = version - uncommittedEvents.length`,
the buffer is cleared on success, and every tenth version additionally
persists a snapshot — whose failure is rethrown after the append already
happened. -/
def UserEventSourcedRepository.save (store : InMemoryEventStore)
    (hasSnapshotStore : Bool) (snapshotSaveOk : Bool) (now : Timestamp)
    (aggregate : UserEventSourcedAggregate) : SaveResult :=
  let uncommittedEvents := aggregate.getUncommittedEvents
  if uncommittedEvents.length = 0 then
    { result := .ok (), store := store, aggregate := aggregate,
      savedSnapshot := none }
  else
    let expectedVersion := aggregate.version - uncommittedEvents.length
    let r := store.saveEvents aggregate.id uncommittedEvents expectedVersion
    match r.1 with
    | .error e =>
      { result := .error (.concurrency e), store := r.2,
        aggregate := aggregate, savedSnapshot := none }
    | .ok _ =>
      let store1 := r.2
      let aggregate1 := aggregate.markEventsAsCommitted
      if hasSnapshotStore ∧ aggregate1.version % 10 = 0 then
        match aggregate1.createSnapshot now with
        | some snapshot =>
          if snapshotSaveOk then
            { result := .ok (), store := store1, aggregate := aggregate1,
              savedSnapshot := some snapshot }
          else
            { result := .error (.snapshotFailure "snapshotStore.saveSnapshot failed"),
              store := store1, aggregate := aggregate1, savedSnapshot := none }
        | none =>
          { result := .error (.snapshotFailure "TypeError in getSnapshotData"),
            store := store1, aggregate := aggregate1, savedSnapshot := none }
      else
        { result := .ok (), store := store1, aggregate := aggregate1,
          savedSnapshot := none }

/-- A heap of JS arrays of domain events, for the aliasing claim about
`getUncommittedEvents`: array references are indices, allocation appends. -/
abbrev EventArrayHeap := List (List BaseDomainEvent)

/-- Dereference an array on the heap. -/
def heapRead (h : EventArrayHeap) (ref : Nat) : List BaseDomainEvent :=
  h.getD ref []

/-- Overwrite the contents of an array on the heap (any mutation of a JS
array — push, splice, assignment — ends in some new contents). -/
def heapWrite (h : EventArrayHeap) (ref : Nat) (contents : List BaseDomainEvent) :
    EventArrayHeap :=
  h.set ref contents

/-- `getUncommittedEvents()` with the aliasing made explicit: the spread
`[...this._uncommittedEvents]` allocates a fresh array whose contents are
copied from the private buffer array `bufRef`, and returns the fresh
reference. -/
def heapGetUncommittedEvents (h : EventArrayHeap) (bufRef : Nat) :
    EventArrayHeap × Nat :=
  (h ++ [heapRead h bufRef], h.length)

/-! Basic lemmas about the aggregate mechanics. -/

theorem applyWhen_id (a : UserEventSourcedAggregate) (e : BaseDomainEvent) :
    (a.applyWhen e).id = a.id := by
  cases h : e.payload <;> simp [UserEventSourcedAggregate.applyWhen, h]

theorem applyWhen_version (a : UserEventSourcedAggregate) (e : BaseDomainEvent) :
    (a.applyWhen e).version = a.version := by
  cases h : e.payload <;> simp [UserEventSourcedAggregate.applyWhen, h]

theorem applyWhen_uncommittedEvents (a : UserEventSourcedAggregate)
    (e : BaseDomainEvent) :
    (a.applyWhen e).uncommittedEvents = a.uncommittedEvents := by
  cases h : e.payload <;> simp [UserEventSourcedAggregate.applyWhen, h]

theorem applyEvent_version (a : UserEventSourcedAggregate) (e : BaseDomainEvent)
    (isNew : Bool) : (a.applyEvent e isNew).version = a.version + 1 := by
  cases isNew <;>
    simp [UserEventSourcedAggregate.applyEvent, applyWhen_version]

theorem applyEvent_id (a : UserEventSourcedAggregate) (e : BaseDomainEvent)
    (isNew : Bool) : (a.applyEvent e isNew).id = a.id := by
  cases isNew <;>
    simp [UserEventSourcedAggregate.applyEvent, applyWhen_id]

theorem applyEvent_false_uncommittedEvents (a : UserEventSourcedAggregate)
    (e : BaseDomainEvent) :
    (a.applyEvent e false).uncommittedEvents = a.uncommittedEvents := by
  simp [UserEventSourcedAggregate.applyEvent, applyWhen_uncommittedEvents]

theorem applyEvent_true_uncommittedEvents (a : UserEventSourcedAggregate)
    (e : BaseDomainEvent) :
    (a.applyEvent e true).uncommittedEvents =
      a.uncommittedEvents ++ [{ e with aggregateVersion := some (a.version + 1) }] := by
  simp [UserEventSourcedAggregate.applyEvent, applyWhen_uncommittedEvents,
    applyWhen_version]

theorem replay_version (l : List BaseDomainEvent) (a : UserEventSourcedAggregate) :
    (l.foldl (fun a e => a.applyEvent e false) a).version = a.version + l.length := by
  induction l generalizing a with
  | nil => simp
  | cons e rest ih =>
    simp only [List.foldl_cons, ih, applyEvent_version, List.length_cons]
    omega

theorem replay_id (l : List BaseDomainEvent) (a : UserEventSourcedAggregate) :
    (l.foldl (fun a e => a.applyEvent e false) a).id = a.id := by
  induction l generalizing a with
  | nil => rfl
  | cons e rest ih => simp only [List.foldl_cons, ih, applyEvent_id]

theorem replay_uncommittedEvents (l : List BaseDomainEvent)
    (a : UserEventSourcedAggregate) :
    (l.foldl (fun a e => a.applyEvent e false) a).uncommittedEvents =
      a.uncommittedEvents := by
  induction l generalizing a with
  | nil => rfl
  | cons e rest ih =>
    simp only [List.foldl_cons, ih, applyEvent_false_uncommittedEvents]

/-! Lemmas about the `saveEvents` version-assignment loop. -/

theorem toStoredEvents_length (aggregateId : String) (counter : Nat)
    (l : List BaseDomainEvent) :
    (toStoredEvents aggregateId counter l).length = l.length := by
  induction l generalizing counter with
  | nil => rfl
  | cons e rest ih => simp [toStoredEvents, ih]

theorem toStoredEvents_map_version (aggregateId : String) (counter : Nat)
    (l : List BaseDomainEvent) :
    (toStoredEvents aggregateId counter l).map (fun s => s.metadata.aggregateVersion) =
      List.range' (counter + 1) l.length := by
  induction l generalizing counter with
  | nil => rfl
  | cons e rest ih =>
    simp [toStoredEvents, mkStoredEvent, ih, List.range'_succ]

theorem toStoredEvents_map_payload (aggregateId : String) (counter : Nat)
    (l : List BaseDomainEvent) :
    (toStoredEvents aggregateId counter l).map (fun s => s.data.payload) =
      l.map (fun e => e.payload) := by
  induction l generalizing counter with
  | nil => rfl
  | cons e rest ih => simp [toStoredEvents, mkStoredEvent, serializeEvent, ih]

/-- Claim C1: `saveEvents(aggregateId, events, expectedVersion)` with
`currentVersion` the store's recorded version for the stream (0 when new):
when `currentVersion ≠ expectedVersion` the call fails with a
`ConcurrencyError` carrying both versions and leaves the event map and the
version map untouched; otherwise it appends exactly the given events in
order, stamped with the consecutive `aggregateVersion` values
`currentVersion + 1, …, currentVersion + events.length`, and records that
last value as the stream's version. -/
theorem spec_c1 (store : InMemoryEventStore) (aggregateId : String)
    (events : List BaseDomainEvent) (expectedVersion : Nat) :
    (store.versions aggregateId ≠ expectedVersion →
      store.saveEvents aggregateId events expectedVersion =
        (.error
          { aggregateId := aggregateId
            expectedVersion := expectedVersion
            actualVersion := store.versions aggregateId }, store)) ∧
    (store.versions aggregateId = expectedVersion →
      ∃ stored : List StoredEvent,
        (store.saveEvents aggregateId events expectedVersion).1 = .ok () ∧
        (store.saveEvents aggregateId events expectedVersion).2.events aggregateId =
          store.events aggregateId ++ stored ∧
        stored.map (fun s => s.data.payload) = events.map (fun e => e.payload) ∧
        stored.map (fun s => s.metadata.aggregateVersion) =
          List.range' (store.versions aggregateId + 1) events.length ∧
        (store.saveEvents aggregateId events expectedVersion).2.versions aggregateId =
          store.versions aggregateId + events.length) := by
  constructor
  · intro h
    simp [InMemoryEventStore.saveEvents, h]
  · intro h
    refine ⟨toStoredEvents aggregateId (store.versions aggregateId) events,
      ?_, ?_, toStoredEvents_map_payload _ _ _,
      toStoredEvents_map_version _ _ _, ?_⟩ <;>
      simp [InMemoryEventStore.saveEvents, h]

/-- Witness for C1: a conflicting append on a fresh stream fails with
expected 5 / actual 0 and leaves the store empty; a matching append assigns
versions 1 and 2 and records version 2. -/
theorem spec_c1_witness :
    letI e1 : BaseDomainEvent :=
      { aggregateId := "u1", occurredAt := 1, aggregateVersion := none,
        payload := .userCreated "a@b.c" "Ann Lee" }
    letI e2 : BaseDomainEvent :=
      { aggregateId := "u1", occurredAt := 2, aggregateVersion := none,
        payload := .userActivated "a@b.c" }
    (InMemoryEventStore.empty.saveEvents "u1" [e1, e2] 5 =
      (.error
        { aggregateId := "u1", expectedVersion := 5, actualVersion := 0 },
        InMemoryEventStore.empty)) ∧
    ∃ stored : List StoredEvent,
      (InMemoryEventStore.empty.saveEvents "u1" [e1, e2] 0).1 = .ok () ∧
      (InMemoryEventStore.empty.saveEvents "u1" [e1, e2] 0).2.events "u1" =
        InMemoryEventStore.empty.events "u1" ++ stored ∧
      stored.map (fun s => s.data.payload) = [e1, e2].map (fun e => e.payload) ∧
      stored.map (fun s => s.metadata.aggregateVersion) = List.range' 1 2 ∧
      (InMemoryEventStore.empty.saveEvents "u1" [e1, e2] 0).2.versions "u1" = 2 := by
  refine ⟨(spec_c1 InMemoryEventStore.empty "u1" _ 5).1 (by decide), ?_⟩
  exact (spec_c1 InMemoryEventStore.empty "u1" _ 0).2 rfl

/-- A batch of calls to the store: each element is the
`(aggregateId, events, expectedVersion)` argument triple of one
`saveEvents` call.  Failed calls leave the store unchanged, so the fold
keeps exactly the successful appends. -/
def runSaveOps (store : InMemoryEventStore)
    (ops : List (String × List BaseDomainEvent × Nat)) : InMemoryEventStore :=
  ops.foldl (fun s op => (s.saveEvents op.1 op.2.1 op.2.2).2) store

/-- The C6 stream invariant: the `aggregateVersion` values stored for a
stream are exactly `1, 2, …, recorded version`. -/
def versionInvariant (store : InMemoryEventStore) (id : String) : Prop :=
  (store.events id).map (fun s => s.metadata.aggregateVersion) =
    List.range' 1 (store.versions id)

theorem saveEvents_preserves_versionInvariant (store : InMemoryEventStore)
    (aggregateId : String) (events : List BaseDomainEvent)
    (expectedVersion : Nat) (h : ∀ id, versionInvariant store id) :
    ∀ id, versionInvariant
      (store.saveEvents aggregateId events expectedVersion).2 id := by
  intro id
  have hinv := h id
  unfold versionInvariant at hinv ⊢
  by_cases hc : store.versions aggregateId ≠ expectedVersion
  · simpa [InMemoryEventStore.saveEvents, hc] using hinv
  · push_neg at hc
    by_cases hid : id = aggregateId
    · subst hid
      simp only [InMemoryEventStore.saveEvents, hc, ne_eq, not_true_eq_false,
        if_false, ite_true, if_true, List.map_append,
        toStoredEvents_map_version, hinv]
      rw [Nat.add_comm expectedVersion 1, List.range'_append_1,
        Nat.add_comm expectedVersion events.length]
    · simpa [InMemoryEventStore.saveEvents, hc, hid] using hinv

/-- Claim C6: starting from the empty store, after any sequence of
`saveEvents` calls (successful ones append, failed ones leave the store
unchanged), the `aggregateVersion` values of every stream are exactly
`1, 2, 3, …` up to the stream's recorded version — strictly increasing, no
duplicates, no gaps. -/
theorem spec_c6 (ops : List (String × List BaseDomainEvent × Nat)) (id : String) :
    ((runSaveOps InMemoryEventStore.empty ops).events id).map
        (fun s => s.metadata.aggregateVersion) =
      List.range' 1 ((runSaveOps InMemoryEventStore.empty ops).versions id) := by
  suffices h : ∀ (store : InMemoryEventStore), (∀ i, versionInvariant store i) →
      ∀ i, versionInvariant (runSaveOps store ops) i by
    exact h InMemoryEventStore.empty (fun _ => rfl) id
  induction ops with
  | nil => intro store h i; exact h i
  | cons op rest ih =>
    intro store h i
    exact ih _ (saveEvents_preserves_versionInvariant store op.1 op.2.1 op.2.2 h) i


/-- `saveEvents` on a version mismatch: the canonical error and the untouched
store. -/
theorem saveEvents_of_ne (store : InMemoryEventStore) (aggregateId : String)
    (events : List BaseDomainEvent) (expectedVersion : Nat)
    (h : store.versions aggregateId ≠ expectedVersion) :
    store.saveEvents aggregateId events expectedVersion =
      (.error
        { aggregateId := aggregateId
          expectedVersion := expectedVersion
          actualVersion := store.versions aggregateId }, store) := by
  simp [InMemoryEventStore.saveEvents, h]

/-- `saveEvents` on a matching version: success, and the updated maps. -/
theorem saveEvents_of_eq (store : InMemoryEventStore) (aggregateId : String)
    (events : List BaseDomainEvent) (expectedVersion : Nat)
    (h : store.versions aggregateId = expectedVersion) :
    store.saveEvents aggregateId events expectedVersion =
      (.ok (),
        { events := fun k =>
            if k = aggregateId then
              store.events aggregateId ++
                toStoredEvents aggregateId (store.versions aggregateId) events
            else store.events k
          versions := fun k =>
            if k = aggregateId then store.versions aggregateId + events.length
            else store.versions k }) := by
  simp [InMemoryEventStore.saveEvents, h]

/-- The error component of a failed `saveEvents` call determines that the
store was left untouched. -/
theorem saveEvents_error_inv (store : InMemoryEventStore) (aggregateId : String)
    (events : List BaseDomainEvent) (expectedVersion : Nat)
    (e : ConcurrencyError) (store1 : InMemoryEventStore)
    (heq : store.saveEvents aggregateId events expectedVersion =
      (.error e, store1)) :
    store1 = store ∧
      e = { aggregateId := aggregateId
            expectedVersion := expectedVersion
            actualVersion := store.versions aggregateId } := by
  by_cases h : store.versions aggregateId ≠ expectedVersion
  · rw [saveEvents_of_ne store aggregateId events expectedVersion h] at heq
    have h1 := congrArg Prod.fst heq
    have h2 := congrArg Prod.snd heq
    simp only [Prod.fst, Prod.snd] at h1 h2
    refine ⟨h2.symm, ?_⟩
    simpa using h1.symm
  · push_neg at h
    rw [saveEvents_of_eq store aggregateId events expectedVersion h] at heq
    have h1 := congrArg Prod.fst heq
    simp only [Prod.fst] at h1
    exact absurd h1 (by simp)
/-- Claim C3: `repository.save(aggregate)` with an empty uncommitted-event
buffer returns successfully without touching the event store; with a
non-empty buffer it calls `saveEvents` with
`expectedVersion = aggregate.version - uncommittedEvents.length`, propagates
a `ConcurrencyError` unchanged (store untouched), and on a successful append
adopts the appended store and clears the buffer. -/
theorem spec_c3 (store : InMemoryEventStore) (hasSnapshotStore snapshotSaveOk : Bool)
    (now : Timestamp) (a : UserEventSourcedAggregate) :
    (a.uncommittedEvents = [] →
      UserEventSourcedRepository.save store hasSnapshotStore snapshotSaveOk now a =
        { result := .ok (), store := store, aggregate := a, savedSnapshot := none }) ∧
    (a.uncommittedEvents ≠ [] →
      (∀ (e : ConcurrencyError) (store1 : InMemoryEventStore),
        store.saveEvents a.id a.uncommittedEvents
            (a.version - a.uncommittedEvents.length) = (.error e, store1) →
        UserEventSourcedRepository.save store hasSnapshotStore snapshotSaveOk now a =
          { result := .error (.concurrency e), store := store,
            aggregate := a, savedSnapshot := none }) ∧
      (∀ store1 : InMemoryEventStore,
        store.saveEvents a.id a.uncommittedEvents
            (a.version - a.uncommittedEvents.length) = (.ok (), store1) →
        (UserEventSourcedRepository.save store hasSnapshotStore snapshotSaveOk now a).store =
          store1 ∧
        (UserEventSourcedRepository.save store hasSnapshotStore snapshotSaveOk
            now a).aggregate.uncommittedEvents = [])) := by
  constructor
  · intro h
    simp [UserEventSourcedRepository.save,
      UserEventSourcedAggregate.getUncommittedEvents, h]
  · intro h
    have hlen : a.uncommittedEvents.length ≠ 0 := by
      simpa [List.length_eq_zero] using h
    constructor
    · intro e store1 heq
      obtain ⟨hstore1, herr⟩ :=
        saveEvents_error_inv store a.id a.uncommittedEvents
          (a.version - a.uncommittedEvents.length) e store1 heq
      subst hstore1
      simp only [UserEventSourcedRepository.save,
        UserEventSourcedAggregate.getUncommittedEvents, hlen, if_false, ite_false]
      rw [heq]
    · intro store1 heq
      simp only [UserEventSourcedRepository.save,
        UserEventSourcedAggregate.getUncommittedEvents, hlen, if_false, ite_false]
      rw [heq]
      dsimp only
      constructor
      · split
        · split
          · split
            · rfl
            · rfl
          · rfl
        · rfl
      · split
        · split
          · split
            · simp [UserEventSourcedAggregate.markEventsAsCommitted]
            · simp [UserEventSourcedAggregate.markEventsAsCommitted]
          · simp [UserEventSourcedAggregate.markEventsAsCommitted]
        · simp [UserEventSourcedAggregate.markEventsAsCommitted]

/-- Witness for C3: saving a fresh aggregate with an empty buffer is the
identity on an empty store, and saving a just-created aggregate (one
uncommitted event, `expectedVersion = 0`) clears the buffer. -/
theorem spec_c3_witness :
    (UserEventSourcedRepository.save InMemoryEventStore.empty false true 7
        (UserEventSourcedAggregate.mkNew "u0") =
      { result := .ok (), store := InMemoryEventStore.empty,
        aggregate := UserEventSourcedAggregate.mkNew "u0",
        savedSnapshot := none }) ∧
    (UserEventSourcedRepository.save InMemoryEventStore.empty false true 7
        (UserEventSourcedAggregate.create "u1" "a@b.c" "Ann" "Lee" 1)).aggregate.uncommittedEvents =
      [] := by
  constructor
  · exact (spec_c3 InMemoryEventStore.empty false true 7
      (UserEventSourcedAggregate.mkNew "u0")).1 rfl
  · exact ((spec_c3 InMemoryEventStore.empty false true 7
      (UserEventSourcedAggregate.create "u1" "a@b.c" "Ann" "Lee" 1)).2
        (by decide)).2 _ rfl |>.2

/-- Claim C8: `activate()` on a blocked aggregate throws the business-rule
error before any event is produced.  In the state-passing embedding the
command returns only the error — the caller's aggregate value and the event
store are untouched by construction, and no event is ever created. -/
theorem spec_c8 (a : UserEventSourcedAggregate) (now : Timestamp)
    (h : a.status = some UserStatus.blocked) :
    a.activate now =
      .error "Заблокированный пользователь не может быть активирован" := by
  simp [UserEventSourcedAggregate.activate, h]

/-- Witness for C8 at a concrete blocked aggregate. -/
theorem spec_c8_witness :
    letI a : UserEventSourcedAggregate :=
      { id := "u1", version := 2, uncommittedEvents := [],
        email := some "a@b.c", userName := some ("Ann", "Lee"),
        status := some UserStatus.blocked, isEmailVerified := false,
        createdAt := some 1, lastLoginAt := none }
    a.status = some UserStatus.blocked ∧
    a.activate 5 =
      .error "Заблокированный пользователь не может быть активирован" :=
  ⟨rfl, spec_c8 _ 5 rfl⟩

/-- Claim C10: `getUncommittedEvents()` hands out a fresh copy of the
uncommitted-event buffer: the returned array is a different reference from
the private buffer, it initially holds the same contents, and overwriting the
returned array (any JS mutation) leaves the aggregate's buffer unchanged. -/
theorem spec_c10 (h : EventArrayHeap) (bufRef : Nat)
    (newContents : List BaseDomainEvent) (href : bufRef < h.length) :
    (heapGetUncommittedEvents h bufRef).2 ≠ bufRef ∧
    heapRead (heapGetUncommittedEvents h bufRef).1
        (heapGetUncommittedEvents h bufRef).2 = heapRead h bufRef ∧
    heapRead
        (heapWrite (heapGetUncommittedEvents h bufRef).1
          (heapGetUncommittedEvents h bufRef).2 newContents) bufRef =
      heapRead h bufRef := by
  refine ⟨by simp [heapGetUncommittedEvents]; omega, ?_, ?_⟩
  · simp only [heapGetUncommittedEvents, heapRead]
    rw [List.getD_append_right _ _ _ _ (Nat.le_refl _)]
    simp
  · simp only [heapGetUncommittedEvents, heapRead, heapWrite, List.getD,
      List.get?_eq_getElem?]
    rw [List.getElem?_set_ne (by omega), List.getElem?_append_left href]

/-- Witness for C10: a one-array heap. -/
theorem spec_c10_witness :
    letI e : BaseDomainEvent :=
      { aggregateId := "u1", occurredAt := 1, aggregateVersion := none,
        payload := .userActivated "a@b.c" }
    (heapGetUncommittedEvents [[e]] 0).2 ≠ 0 ∧
    heapRead (heapGetUncommittedEvents [[e]] 0).1
        (heapGetUncommittedEvents [[e]] 0).2 = heapRead [[e]] 0 ∧
    heapRead
        (heapWrite (heapGetUncommittedEvents [[e]] 0).1
          (heapGetUncommittedEvents [[e]] 0).2 []) 0 =
      heapRead [[e]] 0 :=
  spec_c10 [[_]] 0 [] (by decide)

/-- The observable business state of an aggregate named by claim C2, without
`createdAt`: `(id, version, email, (firstName, lastName), status,
isEmailVerified)`. -/
def observableState (a : UserEventSourcedAggregate) :
    String × Nat × Option String × Option (String × String) × Option UserStatus × Bool :=
  (a.id, a.version, a.email, a.userName, a.status, a.isEmailVerified)

/-- Payload shape of events produced by the aggregate's own command methods:
email fields already normalized by `Email.create`, and the first/last names
recovered from `fullName` already trimmed (commands build `fullName` from a
trimmed `UserName`). -/
def committedPayload : EventPayload → Bool
  | .userCreated email fullName =>
    let names := jsSplitOnSpace fullName
    (Email.create email == email) &&
      (jsTrim (names.headD "") == names.headD "") &&
      (jsTrim (jsJoinSpace (names.drop 1)) == jsJoinSpace (names.drop 1))
  | .userEmailChanged _ newEmail => Email.create newEmail == newEmail
  | _ => true

/-- Invariant of aggregates reached by replaying command-produced events: the
stored email is an `Email.create` fixed point and the stored name components
are `trim` fixed points (so the snapshot round trip, which re-applies the
normalizations, is the identity on them). -/
def normalizedAgg (a : UserEventSourcedAggregate) : Prop :=
  (∀ s, a.email = some s → Email.create s = s) ∧
  (∀ f l, a.userName = some (f, l) → jsTrim f = f ∧ jsTrim l = l)

theorem normalizedAgg_mkNew (id : String) :
    normalizedAgg (UserEventSourcedAggregate.mkNew id) := by
  constructor
  · intro s hs
    simp [UserEventSourcedAggregate.mkNew] at hs
  · intro f l hfl
    simp [UserEventSourcedAggregate.mkNew] at hfl

theorem applyEvent_normalized (a : UserEventSourcedAggregate)
    (e : BaseDomainEvent) (isNew : Bool) (hA : normalizedAgg a)
    (he : committedPayload e.payload = true) :
    normalizedAgg (a.applyEvent e isNew) := by
  have hwhen : normalizedAgg (a.applyWhen e) := by
    cases hp : e.payload with
    | userCreated email fullName =>
      rw [hp] at he
      simp only [committedPayload, Bool.and_eq_true, beq_iff_eq] at he
      obtain ⟨⟨hemail, hfn⟩, hln⟩ := he
      constructor
      · intro s hs
        simp only [UserEventSourcedAggregate.applyWhen, hp, Option.some.injEq] at hs
        rw [← hs, hemail, hemail]
      · intro f l hfl
        simp only [UserEventSourcedAggregate.applyWhen, hp, UserName.create,
          Option.some.injEq, Prod.mk.injEq] at hfl
        obtain ⟨hf, hl⟩ := hfl
        constructor
        · rw [← hf, hfn, hfn]
        · rw [← hl, hln, hln]
    | userActivated email =>
      obtain ⟨h1, h2⟩ := hA
      exact ⟨fun s hs => h1 s (by simpa [UserEventSourcedAggregate.applyWhen, hp] using hs),
        fun f l hfl => h2 f l (by simpa [UserEventSourcedAggregate.applyWhen, hp] using hfl)⟩
    | userBlocked email reason =>
      obtain ⟨h1, h2⟩ := hA
      exact ⟨fun s hs => h1 s (by simpa [UserEventSourcedAggregate.applyWhen, hp] using hs),
        fun f l hfl => h2 f l (by simpa [UserEventSourcedAggregate.applyWhen, hp] using hfl)⟩
    | userEmailVerified email =>
      obtain ⟨h1, h2⟩ := hA
      exact ⟨fun s hs => h1 s (by simpa [UserEventSourcedAggregate.applyWhen, hp] using hs),
        fun f l hfl => h2 f l (by simpa [UserEventSourcedAggregate.applyWhen, hp] using hfl)⟩
    | userEmailChanged oldEmail newEmail =>
      rw [hp] at he
      simp only [committedPayload, beq_iff_eq] at he
      obtain ⟨h1, h2⟩ := hA
      constructor
      · intro s hs
        simp only [UserEventSourcedAggregate.applyWhen, hp, Option.some.injEq] at hs
        rw [← hs, he, he]
      · intro f l hfl
        exact h2 f l (by simpa [UserEventSourcedAggregate.applyWhen, hp] using hfl)
  cases isNew <;>
    exact ⟨fun s hs => hwhen.1 s hs, fun f l hfl => hwhen.2 f l hfl⟩

theorem replay_normalized (l : List BaseDomainEvent)
    (a : UserEventSourcedAggregate) (hA : normalizedAgg a)
    (hl : ∀ e ∈ l, committedPayload e.payload = true) :
    normalizedAgg (l.foldl (fun a e => a.applyEvent e false) a) := by
  induction l generalizing a with
  | nil => exact hA
  | cons e rest ih =>
    simp only [List.foldl_cons]
    exact ih _ (applyEvent_normalized a e false hA (hl e (by simp)))
      (fun x hx => hl x (by simp [hx]))

/-- Applying events with equal payloads to aggregates with equal observable
state yields equal observable state: `createdAt` (the only field that reads
the event's `occurredAt`) is outside the projection, and no event handler
reads `createdAt`. -/
theorem applyEvent_obs_congr (a b : UserEventSourcedAggregate)
    (e1 e2 : BaseDomainEvent) (hobs : observableState a = observableState b)
    (hp : e1.payload = e2.payload) :
    observableState (a.applyEvent e1 false) = observableState (b.applyEvent e2 false) := by
  simp only [observableState, Prod.mk.injEq] at hobs
  obtain ⟨hid, hver, hemail, hname, hstatus, hverif⟩ := hobs
  cases hpay : e1.payload <;>
    simp only [UserEventSourcedAggregate.applyEvent,
      UserEventSourcedAggregate.applyWhen, observableState, hpay, ← hp,
      Bool.false_eq_true, if_false, ite_false, Prod.mk.injEq] <;>
    exact ⟨hid, by rw [hver], by simp [hemail, hname, hstatus, hverif]⟩

theorem replay_obs_congr (l1 l2 : List BaseDomainEvent)
    (a b : UserEventSourcedAggregate)
    (hobs : observableState a = observableState b)
    (hp : l1.map (fun e => e.payload) = l2.map (fun e => e.payload)) :
    observableState (l1.foldl (fun x e => x.applyEvent e false) a) =
      observableState (l2.foldl (fun x e => x.applyEvent e false) b) := by
  induction l1 generalizing l2 a b with
  | nil =>
    cases l2 with
    | nil => exact hobs
    | cons e2 rest2 => simp at hp
  | cons e1 rest1 ih =>
    cases l2 with
    | nil => simp at hp
    | cons e2 rest2 =>
      simp only [List.map_cons, List.cons.injEq] at hp
      simp only [List.foldl_cons]
      exact ih rest2 _ _ (applyEvent_obs_congr a b e1 e2 hobs hp.1) hp.2

theorem toStoredEvents_append (aggregateId : String) (counter : Nat)
    (l1 l2 : List BaseDomainEvent) :
    toStoredEvents aggregateId counter (l1 ++ l2) =
      toStoredEvents aggregateId counter l1 ++
        toStoredEvents aggregateId (counter + l1.length) l2 := by
  induction l1 generalizing counter with
  | nil => simp [toStoredEvents]
  | cons e rest ih =>
    simp only [List.cons_append, toStoredEvents, List.length_cons,
      List.cons.injEq, true_and]
    rw [List.append_eq, ih (counter + 1), Nat.add_assoc,
      Nat.add_comm 1 rest.length]

/-- Every stored event of a batch starting above the bound survives the
`aggregateVersion > fromVersion` filter. -/
theorem filter_toStoredEvents_all (aggregateId : String) (counter k : Nat)
    (l : List BaseDomainEvent) (h : k ≤ counter) :
    (toStoredEvents aggregateId counter l).filter
        (fun e => k < e.metadata.aggregateVersion) =
      toStoredEvents aggregateId counter l := by
  induction l generalizing counter with
  | nil => rfl
  | cons e rest ih =>
    simp only [toStoredEvents, List.filter_cons]
    rw [if_pos (by simp only [mkStoredEvent, decide_eq_true_eq]; omega),
      ih (counter + 1) (by omega)]

/-- A batch that ends at or below the bound is dropped entirely by the
`aggregateVersion > fromVersion` filter. -/
theorem filter_toStoredEvents_none (aggregateId : String) (counter k : Nat)
    (l : List BaseDomainEvent) (h : counter + l.length ≤ k) :
    (toStoredEvents aggregateId counter l).filter
        (fun e => k < e.metadata.aggregateVersion) = [] := by
  induction l generalizing counter with
  | nil => rfl
  | cons e rest ih =>
    simp only [List.length_cons] at h
    simp only [toStoredEvents, List.filter_cons]
    rw [if_neg (by simp only [mkStoredEvent, decide_eq_true_eq]; omega),
      ih (counter + 1) (by omega)]

/-- The trailing events after a cutoff `k` inside a stream stored from
position 0: the filter keeps exactly the stored images of `E.drop k`. -/
theorem filter_toStoredEvents_drop (aggregateId : String) (k : Nat)
    (E : List BaseDomainEvent) (h : k ≤ E.length) :
    (toStoredEvents aggregateId 0 E).filter
        (fun e => k < e.metadata.aggregateVersion) =
      toStoredEvents aggregateId k (E.drop k) := by
  conv_lhs => rw [← List.take_append_drop k E]
  rw [toStoredEvents_append, List.filter_append,
    filter_toStoredEvents_none aggregateId 0 k (E.take k)
      (by simp only [Nat.zero_add, List.length_take]; omega),
    List.length_take, Nat.min_eq_left h, Nat.zero_add,
    filter_toStoredEvents_all aggregateId k k (E.drop k) (le_refl k),
    List.nil_append]

/-- Deserializing a stored batch recovers the original payload list (at the
deserialization-time clock). -/
theorem deserialize_toStoredEvents_payloads (now : Timestamp)
    (aggregateId : String) (counter : Nat) (l : List BaseDomainEvent) :
    (deserializeEvents now (toStoredEvents aggregateId counter l)).map
        (fun e => e.payload) =
      l.map (fun e => e.payload) := by
  induction l generalizing counter with
  | nil => rfl
  | cons e rest ih =>
    simp only [toStoredEvents, deserializeEvents, List.map_cons, List.map_map,
      List.cons.injEq]
    refine ⟨rfl, ?_⟩
    have := ih (counter + 1)
    simpa [deserializeEvents, List.map_map] using this

/-- The snapshot round trip preserves the observable state of a normalized
aggregate: `applySnapshotData` re-applies `Email.create`/`trim`, which fix
the already-normalized snapshot fields. -/
theorem fromSnapshot_createSnapshot_obs (a : UserEventSourcedAggregate)
    (t : Timestamp) (snap : AggregateSnapshot) (hA : normalizedAgg a)
    (hsnap : a.createSnapshot t = some snap) :
    observableState (UserEventSourcedAggregate.fromSnapshot snap) =
      observableState a := by
  simp only [UserEventSourcedAggregate.createSnapshot, Option.map_eq_some'] at hsnap
  obtain ⟨d, hd, hsnapeq⟩ := hsnap
  subst hsnapeq
  revert hd
  unfold UserEventSourcedAggregate.getSnapshotData
  cases hemail : a.email with
  | none => intro hd; simp at hd
  | some email =>
    cases hname : a.userName with
    | none => intro hd; simp at hd
    | some fl =>
      obtain ⟨firstName, lastName⟩ := fl
      cases hstatus : a.status with
      | none => intro hd; simp at hd
      | some st =>
        cases hcreated : a.createdAt with
        | none => intro hd; simp at hd
        | some c =>
          intro hd
          simp only [Option.some.injEq] at hd
          subst hd
          have he : Email.create email = email := hA.1 email hemail
          have hn := hA.2 firstName lastName hname
          simp only [UserEventSourcedAggregate.fromSnapshot,
            UserEventSourcedAggregate.applySnapshotData,
            UserEventSourcedAggregate.mkNew, observableState, UserName.create,
            he, hn.1, hn.2, hemail, hname, hstatus, Prod.mk.injEq]

theorem fromHistory_cons (e : BaseDomainEvent) (rest : List BaseDomainEvent) :
    UserEventSourcedAggregate.fromHistory (e :: rest) =
      .ok ((e :: rest).foldl (fun a ev => a.applyEvent ev false)
        (UserEventSourcedAggregate.mkNew e.aggregateId)) := rfl

/-- `fromHistory` over the deserialization of a stored stream whose first
event belongs to aggregate `id`: the replay folds from a fresh aggregate with
identity `id`. -/
theorem fromHistory_deserialized (now : Timestamp) (id : String)
    (e0 : BaseDomainEvent) (rest : List BaseDomainEvent)
    (hid0 : e0.aggregateId = id) :
    UserEventSourcedAggregate.fromHistory
        (deserializeEvents now (toStoredEvents id 0 (e0 :: rest))) =
      .ok ((deserializeEvents now (toStoredEvents id 0 (e0 :: rest))).foldl
        (fun a e => a.applyEvent e false) (UserEventSourcedAggregate.mkNew id)) := by
  have hcons : deserializeEvents now (toStoredEvents id 0 (e0 :: rest)) =
      deserializeEvent now (mkStoredEvent id 1 e0) ::
        deserializeEvents now (toStoredEvents id 1 rest) := rfl
  rw [hcons, fromHistory_cons]
  have hid2 : (deserializeEvent now (mkStoredEvent id 1 e0)).aggregateId = id := by
    simp [deserializeEvent, mkStoredEvent, serializeEvent, hid0]
  rw [hid2]

/-- `replayFromHistory` on a stream stored from version 0: full replay from a
fresh aggregate. -/
theorem replayFromHistory_stream (store : InMemoryEventStore) (now : Timestamp)
    (id : String) (e0 : BaseDomainEvent) (E0 : List BaseDomainEvent)
    (hstream : store.events id = toStoredEvents id 0 (e0 :: E0))
    (hid0 : e0.aggregateId = id) :
    UserEventSourcedRepository.replayFromHistory store now id =
      .ok (some ((deserializeEvents now (toStoredEvents id 0 (e0 :: E0))).foldl
        (fun a e => a.applyEvent e false) (UserEventSourcedAggregate.mkNew id))) := by
  have hall : store.getEventsForAggregate id (some 0) =
      toStoredEvents id 0 (e0 :: E0) := by
    simp only [InMemoryEventStore.getEventsForAggregate, hstream]
    exact filter_toStoredEvents_all id 0 0 (e0 :: E0) (Nat.le_refl 0)
  simp only [UserEventSourcedRepository.replayFromHistory, hall]
  have hne : (toStoredEvents id 0 (e0 :: E0)).length ≠ 0 := by
    simp [toStoredEvents_length]
  rw [if_neg hne, fromHistory_deserialized now id e0 E0 hid0]
  rfl

/-- Claim C2, amended: for an aggregate whose stream holds `N`
command-produced events, `getById` through a snapshot taken at any cutoff
`k ∈ [1, N]` (itself reconstructed by replay at some earlier time `t1`) and
`replayFromHistory` at the same time `t2` agree on the observable state
*except `createdAt`*: `id`, `version`, `email`, name, `status` and
`isEmailVerified` coincide.  (`createdAt` is excluded because
deserialization stamps the rebuilt `UserCreatedEvent` with the current
clock, so full replay yields `createdAt = t2` while the snapshot path
restores the snapshot's stored value — see `spec_c2_counterexample`.) -/
theorem spec_c2_amended (id : String) (E : List BaseDomainEvent) (k : Nat)
    (t1 t2 tsnap : Timestamp) (store : InMemoryEventStore)
    (Ak : UserEventSourcedAggregate) (snap : AggregateSnapshot)
    (hk1 : 1 ≤ k) (hkN : k ≤ E.length)
    (hids : ∀ e ∈ E, e.aggregateId = id)
    (hnorm : ∀ e ∈ E, committedPayload e.payload = true)
    (hstream : store.events id = toStoredEvents id 0 E)
    (hAk : UserEventSourcedAggregate.fromHistory
      (deserializeEvents t1 (toStoredEvents id 0 (E.take k))) = .ok Ak)
    (hsnap : Ak.createSnapshot tsnap = some snap) :
    ∃ a b,
      UserEventSourcedRepository.getById store (some snap) t2 id = .ok (some a) ∧
      UserEventSourcedRepository.replayFromHistory store t2 id = .ok (some b) ∧
      observableState a = observableState b := by
  obtain ⟨e0, E0, rfl⟩ : ∃ e0 E0, E = e0 :: E0 := by
    cases E with
    | nil => exact absurd (Nat.le_trans hk1 hkN) (by simp)
    | cons x xs => exact ⟨x, xs, rfl⟩
  obtain ⟨k0, rfl⟩ : ∃ k0, k = k0 + 1 := ⟨k - 1, by omega⟩
  have hid0 : e0.aggregateId = id := hids e0 (by simp)
  rw [List.take_succ_cons] at hAk
  rw [fromHistory_deserialized t1 id e0 (E0.take k0) hid0] at hAk
  have hAkEq : Ak =
      (deserializeEvents t1 (toStoredEvents id 0 (e0 :: E0.take k0))).foldl
        (fun a e => a.applyEvent e false) (UserEventSourcedAggregate.mkNew id) :=
    ((Except.ok.injEq _ _).mp hAk).symm
  have hkN2 : k0 ≤ E0.length := by simpa using hkN
  have htakelen : (e0 :: E0.take k0).length = k0 + 1 := by
    simp only [List.length_cons, List.length_take]
    omega
  have hAkver : Ak.version = k0 + 1 := by
    rw [hAkEq, replay_version]
    simp only [UserEventSourcedAggregate.mkNew, deserializeEvents,
      List.length_map, toStoredEvents_length, htakelen]
    omega
  have hnormD : ∀ x ∈ deserializeEvents t1 (toStoredEvents id 0 (e0 :: E0.take k0)),
      committedPayload x.payload = true := by
    intro x hx
    have hmem : x.payload ∈
        (deserializeEvents t1 (toStoredEvents id 0 (e0 :: E0.take k0))).map
          (fun e => e.payload) :=
      List.mem_map_of_mem _ hx
    rw [deserialize_toStoredEvents_payloads] at hmem
    obtain ⟨y, hy, hxy⟩ := List.mem_map.mp hmem
    rw [← hxy]
    refine hnorm y ?_
    cases hy with
    | head => exact List.mem_cons_self _ _
    | tail _ hy2 => exact List.mem_cons_of_mem _ (List.mem_of_mem_take hy2)
  have hAknorm : normalizedAgg Ak := by
    rw [hAkEq]
    exact replay_normalized _ _ (normalizedAgg_mkNew id) hnormD
  have hsnapver : snap.version = k0 + 1 := by
    have h2 := hsnap
    simp only [UserEventSourcedAggregate.createSnapshot, Option.map_eq_some'] at h2
    obtain ⟨d, hd, heq⟩ := h2
    rw [← heq]
    exact hAkver
  have htrail : store.getEventsForAggregate id (some (k0 + 1)) =
      toStoredEvents id (k0 + 1) ((e0 :: E0).drop (k0 + 1)) := by
    simp only [InMemoryEventStore.getEventsForAggregate, hstream]
    exact filter_toStoredEvents_drop id (k0 + 1) (e0 :: E0) hkN
  have hgetById : UserEventSourcedRepository.getById store (some snap) t2 id =
      .ok (some ((deserializeEvents t2
          (toStoredEvents id (k0 + 1) ((e0 :: E0).drop (k0 + 1)))).foldl
        (fun a e => a.applyEvent e false)
        (UserEventSourcedAggregate.fromSnapshot snap))) := by
    simp only [UserEventSourcedRepository.getById, hsnapver, htrail]
    by_cases hdrop : (e0 :: E0).drop (k0 + 1) = []
    · rw [hdrop]
      simp [toStoredEvents, deserializeEvents]
    · have hlt : k0 < E0.length := by
        by_contra hge
        push_neg at hge
        exact hdrop (List.drop_eq_nil_of_le (by simpa using hge))
      have hlen : (toStoredEvents id (k0 + 1) ((e0 :: E0).drop (k0 + 1))).length ≠ 0 := by
        rw [toStoredEvents_length]
        simp only [List.length_drop, List.length_cons]
        omega
      rw [if_neg hlen, if_pos (Nat.succ_pos k0)]
  have hreplay := replayFromHistory_stream store t2 id e0 E0 hstream hid0
  refine ⟨_, _, hgetById, hreplay, ?_⟩
  have hsplit : toStoredEvents id 0 (e0 :: E0) =
      toStoredEvents id 0 ((e0 :: E0).take (k0 + 1)) ++
        toStoredEvents id (k0 + 1) ((e0 :: E0).drop (k0 + 1)) := by
    conv_lhs => rw [← List.take_append_drop (k0 + 1) (e0 :: E0)]
    rw [toStoredEvents_append, List.length_take, Nat.min_eq_left hkN, Nat.zero_add]
  rw [hsplit]
  have hmap : deserializeEvents t2
      (toStoredEvents id 0 ((e0 :: E0).take (k0 + 1)) ++
        toStoredEvents id (k0 + 1) ((e0 :: E0).drop (k0 + 1))) =
      deserializeEvents t2 (toStoredEvents id 0 ((e0 :: E0).take (k0 + 1))) ++
        deserializeEvents t2 (toStoredEvents id (k0 + 1) ((e0 :: E0).drop (k0 + 1))) :=
    List.map_append _ _ _
  rw [hmap, List.foldl_append]
  refine replay_obs_congr _ _ _ _ ?_ rfl
  have hobs1 : observableState (UserEventSourcedAggregate.fromSnapshot snap) =
      observableState Ak :=
    fromSnapshot_createSnapshot_obs Ak tsnap snap hAknorm hsnap
  rw [hobs1, hAkEq, List.take_succ_cons]
  refine replay_obs_congr _ _ _ _ rfl ?_
  rw [deserialize_toStoredEvents_payloads, deserialize_toStoredEvents_payloads]

deriving instance DecidableEq for Except

/-- Fallback snapshot record for total extraction from `Option`. -/
def snapshotFallback : AggregateSnapshot :=
  { aggregateId := "", aggregateType := "", version := 0,
    data := { email := "", firstName := "", lastName := "",
              status := UserStatus.pending, isEmailVerified := false,
              createdAt := 0, lastLoginAt := none },
    timestamp := 0 }

/-- Concrete C2 scenario: one committed `UserCreatedEvent` for aggregate
`u2`. -/
def c2event : BaseDomainEvent :=
  { aggregateId := "u2", occurredAt := 1, aggregateVersion := none,
    payload := .userCreated "ann@x.com" "Ann Lee" }

/-- The store holding the single committed event. -/
def c2store : InMemoryEventStore :=
  (InMemoryEventStore.empty.saveEvents "u2" [c2event] 0).2

/-- The aggregate as reconstructed by full replay at clock time `now`. -/
def c2aggregateAt (now : Timestamp) : UserEventSourcedAggregate :=
  match UserEventSourcedRepository.replayFromHistory c2store now "u2" with
  | .ok (some a) => a
  | _ => UserEventSourcedAggregate.mkNew "unreachable"

/-- The snapshot the system writes after replaying at time 5 (cutoff k = 1,
snapshot clock 7). -/
def c2snapshot : AggregateSnapshot :=
  ((c2aggregateAt 5).createSnapshot 7).getD snapshotFallback

/-- The aggregate `getById` returns at time 9 through the snapshot. -/
def c2viaSnapshot : UserEventSourcedAggregate :=
  match UserEventSourcedRepository.getById c2store (some c2snapshot) 9 "u2" with
  | .ok (some a) => a
  | _ => UserEventSourcedAggregate.mkNew "unreachable2"

/-- The aggregate `replayFromHistory` returns at time 9. -/
def c2viaReplay : UserEventSourcedAggregate := c2aggregateAt 9

/-- Counterexample to claim C2 as stated: with the single-event stream of
`c2store`, a snapshot taken from a replay at time 5 and both load paths run
at time 9, `getById` restores `createdAt = 5` from the snapshot while
`replayFromHistory` re-stamps `createdAt = 9` (deserialization runs the
`BaseDomainEvent` constructor, which sets `occurredAt` to the current
clock) — the observable states differ on `createdAt`. -/
theorem spec_c2_counterexample :
    UserEventSourcedRepository.getById c2store (some c2snapshot) 9 "u2" =
      .ok (some c2viaSnapshot) ∧
    UserEventSourcedRepository.replayFromHistory c2store 9 "u2" =
      .ok (some c2viaReplay) ∧
    c2viaSnapshot.createdAt = some 5 ∧
    c2viaReplay.createdAt = some 9 ∧
    c2viaSnapshot.createdAt ≠ c2viaReplay.createdAt := by decide

/-- Concrete C2 witness scenario: two committed events, snapshot cutoff 1. -/
def c2wEvents : List BaseDomainEvent :=
  [ { aggregateId := "u2", occurredAt := 1, aggregateVersion := none,
      payload := .userCreated "ann@x.com" "Ann Lee" },
    { aggregateId := "u2", occurredAt := 2, aggregateVersion := none,
      payload := .userActivated "ann@x.com" } ]

/-- Store holding the two committed witness events. -/
def c2wStore : InMemoryEventStore :=
  (InMemoryEventStore.empty.saveEvents "u2" c2wEvents 0).2

/-- The cutoff-1 aggregate, replayed at time 5. -/
def c2wAk : UserEventSourcedAggregate :=
  match UserEventSourcedAggregate.fromHistory
      (deserializeEvents 5 (toStoredEvents "u2" 0 (c2wEvents.take 1))) with
  | .ok a => a
  | .error _ => UserEventSourcedAggregate.mkNew "unreachable3"

/-- The snapshot of the cutoff-1 aggregate, taken at time 7. -/
def c2wSnap : AggregateSnapshot := (c2wAk.createSnapshot 7).getD snapshotFallback

/-- Witness for the amended C2 at the concrete two-event scenario. -/
theorem spec_c2_witness :
    ∃ a b,
      UserEventSourcedRepository.getById c2wStore (some c2wSnap) 9 "u2" =
        .ok (some a) ∧
      UserEventSourcedRepository.replayFromHistory c2wStore 9 "u2" =
        .ok (some b) ∧
      observableState a = observableState b :=
  spec_c2_amended "u2" c2wEvents 1 5 9 7 c2wStore c2wAk c2wSnap
    (by decide) (by decide) (by decide) (by decide) (by decide) (by decide)
    (by decide)

/-- Extract the aggregate from a command that is known to succeed in the
scenario at hand (the fallback arm is unreachable there). -/
def getOk (r : Except String UserEventSourcedAggregate) (fallback : String) :
    UserEventSourcedAggregate :=
  match r with
  | .ok a => a
  | .error _ => UserEventSourcedAggregate.mkNew fallback

/-- Scenario C step 0: `create` at time 1 (event 1). -/
def c7created : UserEventSourcedAggregate :=
  UserEventSourcedAggregate.create "u1" "ann@x.com" "Ann" "Lee" 1

/-- Scenario C step 1: `verifyEmail()` at time 2 (event 2). -/
def c7verified : UserEventSourcedAggregate := getOk (c7created.verifyEmail 2) "x1"

/-- Scenario C step 2: `activate()` at time 3 (event 3, version 3). -/
def c7activated : UserEventSourcedAggregate := getOk (c7verified.activate 3) "x2"

/-- Scenario C step 3: save the three events; the stream reaches version 3. -/
def c7initialSave : SaveResult :=
  UserEventSourcedRepository.save InMemoryEventStore.empty false true 4 c7activated

/-- The version-3 aggregate both copies hold (status Active, email
verified, empty buffer). -/
def c7loaded : UserEventSourcedAggregate := c7initialSave.aggregate

/-- The store at stream version 3. -/
def c7store3 : InMemoryEventStore := c7initialSave.store

/-- Copy 1 calls `block("reason")`. -/
def c7copy1 : UserEventSourcedAggregate := getOk (c7loaded.block "reason" 5) "x3"

/-- Copy 1 saves successfully, advancing the stream to version 4. -/
def c7save1 : SaveResult :=
  UserEventSourcedRepository.save c7store3 false true 6 c7copy1

/-- The store at stream version 4. -/
def c7store4 : InMemoryEventStore := c7save1.store

/-- Copy 2 calls `activate()` on its version-3 state. -/
def c7copy2Activate : Except String UserEventSourcedAggregate :=
  c7loaded.activate 7

/-- Copy 2 then attempts to save. -/
def c7save2 : SaveResult :=
  UserEventSourcedRepository.save c7store4 false true 8 (getOk c7copy2Activate "x4")

/-- Copy 2 variant that issues an event-producing command instead:
`block("x")` on the stale version-3 state. -/
def c7copy2Block : UserEventSourcedAggregate := getOk (c7loaded.block "x" 7) "x5"

/-- The save of the event-producing variant. -/
def c7save2Block : SaveResult :=
  UserEventSourcedRepository.save c7store4 false true 8 c7copy2Block

/-- Counterexample to claim C7 as stated: in scenario C, copy 2's
`activate()` on the already-active version-3 aggregate is an idempotent
no-op — it produces no event — so its subsequent `save` succeeds as a no-op
without ever reaching the event store: no Concurrency Conflict is raised. -/
theorem spec_c7_counterexample :
    c7loaded.version = 3 ∧
    c7loaded.status = some UserStatus.active ∧
    c7loaded.isEmailVerified = true ∧
    c7save1.result = .ok () ∧
    c7store4.versions "u1" = 4 ∧
    c7copy2Activate = .ok c7loaded ∧
    (getOk c7copy2Activate "x4").uncommittedEvents = [] ∧
    c7save2.result = .ok () ∧
    c7save2.store.events "u1" = c7store4.events "u1" ∧
    c7save2.store.versions "u1" = 4 := by decide

/-- Claim C7, amended: with both copies of `u1` loaded at version 3 (status
Active, email verified), copy 1's `block("reason")` save advances the stream
to version 4; copy 2's `activate()` produces no event (already active), so
its save is a successful no-op; a copy-2 command that does produce an event
(e.g. `block("x")` at stale version 3) makes the save fail with a
Concurrency Conflict reporting expected = 3, actual = 4, leaving the stream
unchanged. -/
theorem spec_c7 :
    c7loaded.version = 3 ∧
    c7loaded.status = some UserStatus.active ∧
    c7loaded.isEmailVerified = true ∧
    c7save1.result = .ok () ∧
    c7store4.versions "u1" = 4 ∧
    c7copy2Activate = .ok c7loaded ∧
    c7save2.result = .ok () ∧
    c7save2.store.events "u1" = c7store4.events "u1" ∧
    c7copy2Block.version = 4 ∧
    c7copy2Block.uncommittedEvents.length = 1 ∧
    c7save2Block.result = .error (.concurrency
      { aggregateId := "u1", expectedVersion := 3, actualVersion := 4 }) ∧
    c7save2Block.store.events "u1" = c7store4.events "u1" ∧
    c7save2Block.store.versions "u1" = 4 := by decide

/-- Claim C9, amended: when `save` appends successfully (matching versions,
non-empty buffer), the snapshot step triggers (version divisible by 10,
snapshot store configured) and the snapshot persistence fails, the committed
append is *not* rolled back — the events stay appended, the stream version
stays advanced, and the aggregate's buffer stays cleared — but the snapshot
failure propagates out of `save` as an error (`createSnapshot` rethrows and
`save` rethrows), so the call itself reports failure rather than being
best-effort. -/
theorem spec_c9 (store : InMemoryEventStore) (a : UserEventSourcedAggregate)
    (now : Timestamp)
    (hne : a.uncommittedEvents ≠ [])
    (hver : store.versions a.id = a.version - a.uncommittedEvents.length)
    (hmod : a.version % 10 = 0)
    (hdata : (a.getSnapshotData).isSome = true) :
    (UserEventSourcedRepository.save store true false now a).result =
      .error (.snapshotFailure "snapshotStore.saveSnapshot failed") ∧
    (UserEventSourcedRepository.save store true false now a).store.events a.id =
      store.events a.id ++
        toStoredEvents a.id (store.versions a.id) a.uncommittedEvents ∧
    (UserEventSourcedRepository.save store true false now a).store.versions a.id =
      store.versions a.id + a.uncommittedEvents.length ∧
    (UserEventSourcedRepository.save store true false now a).aggregate.uncommittedEvents =
      [] := by
  have hlen : a.uncommittedEvents.length ≠ 0 := by
    simpa [List.length_eq_zero] using hne
  obtain ⟨d, hd⟩ := Option.isSome_iff_exists.mp hdata
  have hd2 : (a.markEventsAsCommitted).getSnapshotData = some d := hd
  have hsnapEq : (a.markEventsAsCommitted).createSnapshot now =
      some { aggregateId := a.id, aggregateType := "UserEventSourcedAggregate",
             version := a.version, data := d, timestamp := now } := by
    simp only [UserEventSourcedAggregate.createSnapshot, hd2, Option.map_some',
      Option.some.injEq]
    exact rfl
  have hmod2 : (a.markEventsAsCommitted).version % 10 = 0 := hmod
  simp only [UserEventSourcedRepository.save,
    UserEventSourcedAggregate.getUncommittedEvents, hlen, if_false, ite_false]
  rw [saveEvents_of_eq store a.id a.uncommittedEvents
    (a.version - a.uncommittedEvents.length) hver]
  dsimp only
  rw [if_pos ⟨trivial, hmod2⟩, hsnapEq]
  refine ⟨rfl, ?_, ?_, rfl⟩ <;> simp

/-- Concrete C9 scenario, version-3 base: create, verify, activate. -/
def c9base : UserEventSourcedAggregate :=
  getOk ((getOk ((UserEventSourcedAggregate.create "u9" "a0@x.com" "Ann" "Lee" 1).verifyEmail 2)
    "y1").activate 3) "y2"

/-- Concrete C9 aggregate: seven further `changeEmail` commands bring the
version to 10 with ten uncommitted events. -/
def c9agg : UserEventSourcedAggregate :=
  ["b1@x.com", "b2@x.com", "b3@x.com", "b4@x.com", "b5@x.com", "b6@x.com",
    "b7@x.com"].foldl (fun u e => getOk (u.changeEmail e 4) "y3") c9base

/-- Saving the ten events on an empty store with a snapshot store configured
whose `saveSnapshot` fails. -/
def c9save : SaveResult :=
  UserEventSourcedRepository.save InMemoryEventStore.empty true false 20 c9agg

/-- Counterexample to claim C9 as stated ("the snapshot step is best-effort
and non-critical to the save"): with the version-10 aggregate of `c9agg` and
a failing snapshot store, the append itself succeeds — ten events stored,
stream version 10, buffer cleared — yet `save` reports an error instead of
success: the snapshot failure is rethrown, not swallowed. -/
theorem spec_c9_counterexample :
    c9agg.version = 10 ∧
    c9agg.uncommittedEvents.length = 10 ∧
    (c9save.store.events "u9").length = 10 ∧
    c9save.store.versions "u9" = 10 ∧
    c9save.aggregate.uncommittedEvents = [] ∧
    c9save.result = .error (.snapshotFailure "snapshotStore.saveSnapshot failed") ∧
    c9save.result ≠ .ok () := by decide

/-- Witness for the amended C9 at the concrete version-10 scenario. -/
theorem spec_c9_witness :
    (UserEventSourcedRepository.save InMemoryEventStore.empty true false 20 c9agg).result =
      .error (.snapshotFailure "snapshotStore.saveSnapshot failed") ∧
    (UserEventSourcedRepository.save InMemoryEventStore.empty true false 20
        c9agg).store.events c9agg.id =
      InMemoryEventStore.empty.events c9agg.id ++
        toStoredEvents c9agg.id (InMemoryEventStore.empty.versions c9agg.id)
          c9agg.uncommittedEvents ∧
    (UserEventSourcedRepository.save InMemoryEventStore.empty true false 20
        c9agg).store.versions c9agg.id =
      InMemoryEventStore.empty.versions c9agg.id + c9agg.uncommittedEvents.length ∧
    (UserEventSourcedRepository.save InMemoryEventStore.empty true false 20
        c9agg).aggregate.uncommittedEvents = [] :=
  spec_c9 InMemoryEventStore.empty c9agg 20 (by decide) (by decide) (by decide)
    (by decide)

/-- When `Email.createChecked` succeeds, its value is exactly the normalized
string kept by `Email.create`. -/
theorem emailCreateChecked_ok (email v : String)
    (h : Email.createChecked email = .ok v) : v = Email.create email := by
  simp only [Email.createChecked] at h
  split at h
  · exact absurd h (by simp)
  · simp only [Email.create]
    exact ((Except.ok.injEq _ _).mp h).symm

/-- When `UserName.createChecked` succeeds, its value is exactly the trimmed
pair kept by `UserName.create`. -/
theorem userNameCreateChecked_ok (firstName lastName : String)
    (p : String × String)
    (h : UserName.createChecked firstName lastName = .ok p) :
    p = UserName.create firstName lastName := by
  simp only [UserName.createChecked] at h
  split at h
  · exact absurd h (by simp)
  · split at h
    · exact absurd h (by simp)
    · split at h
      · exact absurd h (by simp)
      · split at h
        · exact absurd h (by simp)
        · simp only [UserName.create]
          exact ((Except.ok.injEq _ _).mp h).symm

/-- When the full `when` handler does not throw, it computes exactly the
state of the validation-free `applyWhen`. -/
theorem applyWhenChecked_ok_eq (a a1 : UserEventSourcedAggregate)
    (e : BaseDomainEvent) (h : a.applyWhenChecked e = .ok a1) :
    a1 = a.applyWhen e := by
  cases hp : e.payload with
  | userCreated email fullName =>
    simp only [UserEventSourcedAggregate.applyWhenChecked, hp] at h
    cases hec : Email.createChecked email with
    | error msg => rw [hec] at h; exact absurd h (by simp)
    | ok em =>
      rw [hec] at h
      cases hun : UserName.createChecked ((jsSplitOnSpace fullName).headD "")
          (jsJoinSpace ((jsSplitOnSpace fullName).drop 1)) with
      | error msg => rw [hun] at h; exact absurd h (by simp)
      | ok un =>
        rw [hun] at h
        have hem := emailCreateChecked_ok email em hec
        have hune := userNameCreateChecked_ok _ _ un hun
        simp only [UserEventSourcedAggregate.applyWhen, hp]
        rw [← ((Except.ok.injEq _ _).mp h), hem, hune]
  | userActivated email =>
    simp only [UserEventSourcedAggregate.applyWhenChecked,
      UserEventSourcedAggregate.applyWhen, hp] at h ⊢
    exact ((Except.ok.injEq _ _).mp h).symm
  | userBlocked email reason =>
    simp only [UserEventSourcedAggregate.applyWhenChecked,
      UserEventSourcedAggregate.applyWhen, hp] at h ⊢
    exact ((Except.ok.injEq _ _).mp h).symm
  | userEmailVerified email =>
    simp only [UserEventSourcedAggregate.applyWhenChecked,
      UserEventSourcedAggregate.applyWhen, hp] at h ⊢
    exact ((Except.ok.injEq _ _).mp h).symm
  | userEmailChanged oldEmail newEmail =>
    simp only [UserEventSourcedAggregate.applyWhenChecked, hp] at h
    cases hec : Email.createChecked newEmail with
    | error msg => rw [hec] at h; exact absurd h (by simp)
    | ok em =>
      rw [hec] at h
      have hem := emailCreateChecked_ok newEmail em hec
      simp only [UserEventSourcedAggregate.applyWhen, hp]
      rw [← ((Except.ok.injEq _ _).mp h), hem]

/-- When the full `applyEvent` does not throw, it computes exactly the result
of the validation-free `applyEvent`. -/
theorem applyEventChecked_ok_eq (a b : UserEventSourcedAggregate)
    (e : BaseDomainEvent) (isNew : Bool)
    (h : a.applyEventChecked e isNew = .ok b) :
    b = a.applyEvent e isNew := by
  simp only [UserEventSourcedAggregate.applyEventChecked] at h
  cases hw : a.applyWhenChecked e with
  | error msg => rw [hw] at h; exact absurd h (by simp)
  | ok a1 =>
    rw [hw] at h
    have ha1 := applyWhenChecked_ok_eq a a1 e hw
    subst ha1
    simp only [UserEventSourcedAggregate.applyEvent]
    cases isNew with
    | true => simpa using ((Except.ok.injEq _ _).mp h).symm
    | false => simpa using ((Except.ok.injEq _ _).mp h).symm

/-- A validation error in `when` propagates out of the full `applyEvent`
(the version increment and the buffering never run). -/
theorem applyEventChecked_error (a : UserEventSourcedAggregate)
    (e : BaseDomainEvent) (isNew : Bool) (msg : String)
    (h : a.applyWhenChecked e = .error msg) :
    a.applyEventChecked e isNew = .error msg := by
  simp [UserEventSourcedAggregate.applyEventChecked, h]

/-- A successful checked replay computes exactly the validation-free
replay. -/
theorem foldlM_applyEventChecked_ok (l : List BaseDomainEvent)
    (b a : UserEventSourcedAggregate)
    (h : l.foldlM (fun x e => x.applyEventChecked e false) b = .ok a) :
    l.foldl (fun x e => x.applyEvent e false) b = a := by
  induction l generalizing b with
  | nil =>
    simp only [List.foldlM_nil, pure, Except.pure] at h
    exact (Except.ok.injEq _ _).mp h
  | cons e rest ih =>
    rw [List.foldlM_cons] at h
    cases hstep : b.applyEventChecked e false with
    | error msg =>
      rw [hstep] at h
      simp [Bind.bind, Except.bind] at h
    | ok b1 =>
      rw [hstep] at h
      simp only [Bind.bind, Except.bind] at h
      rw [List.foldl_cons, ← applyEventChecked_ok_eq b b1 e false hstep]
      exact ih b1 h

/-- Counterexample to claim C4 as stated: the claim asserts every non-empty
ordered event sequence yields an aggregate, but `when` runs the value-object
constructors, whose validation throws — `fromHistory` on the one-element
history carrying a `UserCreatedEvent` with an empty email throws the `Email`
validation error instead of returning an aggregate. -/
theorem spec_c4_counterexample :
    UserEventSourcedAggregate.fromHistoryChecked
        [{ aggregateId := "u1", occurredAt := 1, aggregateVersion := none,
           payload := .userCreated "" "Ann Lee" }] =
      .error "Email не может быть пустым" := by decide

/-- Claim C4, amended: `fromHistory(events)` fails with the Invalid-State
error on an empty sequence; for every non-empty sequence whose replay
succeeds (no value-object validation error is thrown while applying the
events), the returned aggregate's id is the first event's `aggregateId`, its
version equals the number of events applied, and its uncommitted-event
buffer is empty. -/
theorem spec_c4_amended :
    UserEventSourcedAggregate.fromHistoryChecked [] =
      .error "Нельзя восстановить агрегат из пустой истории событий" ∧
    ∀ (e : BaseDomainEvent) (rest : List BaseDomainEvent)
      (a : UserEventSourcedAggregate),
      UserEventSourcedAggregate.fromHistoryChecked (e :: rest) = .ok a →
      a.id = e.aggregateId ∧ a.version = (e :: rest).length ∧
      a.uncommittedEvents = [] := by
  refine ⟨rfl, ?_⟩
  intro e rest a h
  simp only [UserEventSourcedAggregate.fromHistoryChecked] at h
  have hfold := foldlM_applyEventChecked_ok (e :: rest)
    (UserEventSourcedAggregate.mkNew e.aggregateId) a h
  rw [← hfold]
  refine ⟨?_, ?_, ?_⟩
  · simp [replay_id, applyEvent_id, UserEventSourcedAggregate.mkNew]
  · simp only [List.foldl_cons, replay_version, applyEvent_version,
      List.length_cons, UserEventSourcedAggregate.mkNew]
    omega
  · simp [replay_uncommittedEvents, applyEvent_false_uncommittedEvents,
      UserEventSourcedAggregate.mkNew]

/-- First event of the C4 witness history. -/
def c4wHead : BaseDomainEvent :=
  { aggregateId := "u4", occurredAt := 1, aggregateVersion := none,
    payload := .userCreated "ann@x.com" "Ann Lee" }

/-- Remaining events of the C4 witness history. -/
def c4wTail : List BaseDomainEvent :=
  [{ aggregateId := "u4", occurredAt := 2, aggregateVersion := none,
     payload := .userActivated "ann@x.com" }]

/-- The aggregate the C4 witness history reconstructs. -/
def c4wAgg : UserEventSourcedAggregate :=
  match UserEventSourcedAggregate.fromHistoryChecked (c4wHead :: c4wTail) with
  | .ok a => a
  | .error _ => UserEventSourcedAggregate.mkNew "z"

/-- Witness for the amended C4 at a concrete valid two-event history. -/
theorem spec_c4_witness :
    UserEventSourcedAggregate.fromHistoryChecked (c4wHead :: c4wTail) =
      .ok c4wAgg ∧
    c4wAgg.id = c4wHead.aggregateId ∧
    c4wAgg.version = (c4wHead :: c4wTail).length ∧
    c4wAgg.uncommittedEvents = [] :=
  ⟨by decide, spec_c4_amended.2 c4wHead c4wTail c4wAgg (by decide)⟩

/-- Counterexample to claim C5 as stated: the claim asserts the version
increments for *every* event and `isNew`, but `when` runs before
`this._version++` and throws the `Email` validation error on a
`UserCreatedEvent` with an empty email, for both values of `isNew` — no
increment and no buffering happen. -/
theorem spec_c5_counterexample :
    letI e : BaseDomainEvent :=
      { aggregateId := "u1", occurredAt := 3, aggregateVersion := none,
        payload := .userCreated "" "Ann Lee" }
    (UserEventSourcedAggregate.mkNew "u1").applyEventChecked e true =
      .error "Email не может быть пустым" ∧
    (UserEventSourcedAggregate.mkNew "u1").applyEventChecked e false =
      .error "Email не может быть пустым" := by decide

/-- Claim C5, amended: whenever `applyEvent(event, isNew)` returns (the
`when` handler's value-object validation does not throw), the version is
incremented by exactly 1, and the event — stamped with the now-current
version — is appended to the uncommitted-event buffer iff `isNew`; when
`when` throws, the error propagates out of `applyEvent` before the version
increment or buffering, leaving the aggregate unchanged. -/
theorem spec_c5_amended (a : UserEventSourcedAggregate) (e : BaseDomainEvent)
    (isNew : Bool) :
    (∀ b : UserEventSourcedAggregate,
      a.applyEventChecked e isNew = .ok b →
      b.version = a.version + 1 ∧
      (isNew = true →
        b.uncommittedEvents =
          a.uncommittedEvents ++ [{ e with aggregateVersion := some b.version }]) ∧
      (isNew = false → b.uncommittedEvents = a.uncommittedEvents)) ∧
    (∀ msg : String,
      a.applyWhenChecked e = .error msg →
      a.applyEventChecked e isNew = .error msg) := by
  constructor
  · intro b hb
    have hbe := applyEventChecked_ok_eq a b e isNew hb
    subst hbe
    refine ⟨applyEvent_version a e isNew, ?_, ?_⟩
    · intro hn
      subst hn
      rw [applyEvent_true_uncommittedEvents, applyEvent_version]
    · intro hn
      subst hn
      exact applyEvent_false_uncommittedEvents a e
  · intro msg hmsg
    exact applyEventChecked_error a e isNew msg hmsg

/-- A valid C5 witness event (no validation involved). -/
def c5wOkEvent : BaseDomainEvent :=
  { aggregateId := "u5", occurredAt := 3, aggregateVersion := none,
    payload := .userActivated "a@b.c" }

/-- A C5 witness event whose application throws: `changeEmail` to a
malformed address fails the `Email` regex. -/
def c5wBadEvent : BaseDomainEvent :=
  { aggregateId := "u5", occurredAt := 4, aggregateVersion := none,
    payload := .userEmailChanged "a@b.c" "bad" }

/-- The aggregate produced by applying the valid C5 witness event. -/
def c5wOk : UserEventSourcedAggregate :=
  match (UserEventSourcedAggregate.mkNew "u5").applyEventChecked c5wOkEvent true with
  | .ok b => b
  | .error _ => UserEventSourcedAggregate.mkNew "w"

/-- Witness for the amended C5: the successful branch at a concrete valid
event, and the error branch at a concrete malformed-email event. -/
theorem spec_c5_witness :
    ((UserEventSourcedAggregate.mkNew "u5").applyEventChecked c5wOkEvent true =
        .ok c5wOk ∧
      c5wOk.version = (UserEventSourcedAggregate.mkNew "u5").version + 1 ∧
      c5wOk.uncommittedEvents =
        (UserEventSourcedAggregate.mkNew "u5").uncommittedEvents ++
          [{ c5wOkEvent with aggregateVersion := some c5wOk.version }]) ∧
    ((UserEventSourcedAggregate.mkNew "u5").applyWhenChecked c5wBadEvent =
        .error "Некорректный формат email адреса" ∧
      (UserEventSourcedAggregate.mkNew "u5").applyEventChecked c5wBadEvent true =
        .error "Некорректный формат email адреса") := by
  constructor
  · have h := (spec_c5_amended (UserEventSourcedAggregate.mkNew "u5")
      c5wOkEvent true).1 c5wOk (by decide)
    exact ⟨by decide, h.1, h.2.1 rfl⟩
  · exact ⟨by decide, (spec_c5_amended (UserEventSourcedAggregate.mkNew "u5")
      c5wBadEvent true).2 _ (by decide)⟩
